import Mathlib

/-!
Shallow embedding of the A4 trader/seller failover protocol.

The repository has two Go programs: `trader.go` (coordinator, struct `Trader`)
and a seller program (dependent, struct `Seller`).  Network effects (rpc.Dial,
client.Call) are modelled by explicit outcome values supplied by an
environment; each Go method becomes a pure function from the receiver state
and the environment's outcomes to the new state plus the observable effects
(replies sent, notification attempts made, returned error value).
-/

namespace A4

/-- Request struct, shared by trader.go and the seller source. -/
structure Request where
  SellerID : Int
  Post : Int
  Item : String
  Quantity : Int
  RequestID : Int
  deriving DecidableEq, Repr

/-- Response struct, shared by trader.go and the seller source. -/
structure Response where
  Status : String
  Message : String
  RequestID : Int
  Processed : Bool
  deriving DecidableEq, Repr

/-- Trader struct from trader.go (the two sync.Mutex fields carry no data and
are modelled separately by the lock-action traces below). -/
structure Trader where
  ID : Int
  Address : String
  Peer : String
  Post : Int
  IsLeader : Bool
  Heartbeat : Bool
  Requests : List Request
  deriving DecidableEq, Repr

/-- Seller struct from the seller source (sync.Mutex field modelled by the
lock-action traces below). -/
structure Seller where
  ID : Int
  Address : String
  TraderAddr : String
  Post : Int
  RequestID : Int
  deriving DecidableEq, Repr

/-- Outcome of an rpc.Dial attempt. -/
inductive DialResult where
  | fail (err : String)
  | ok
  deriving DecidableEq, Repr

/-- Outcome of a client.Call attempt. -/
inductive CallResult where
  | fail (err : String)
  | ok (reply : String)
  deriving DecidableEq, Repr

/-- Environment supplying the network outcomes seen by Trader.NotifySellers:
for each seller address, what rpc.Dial returns and what the
Seller.UpdateLeader call returns. -/
structure NotifyEnv where
  dial : String → DialResult
  call : String → String → CallResult

/-- What happened for one seller address during Trader.NotifySellers. -/
inductive NotifyResult where
  | dialFailed (err : String)
  | callFailed (err : String)
  | notified (reply : String)
  deriving DecidableEq, Repr

/-- The hardcoded seller roster inside Trader.NotifySellers. -/
def sellerAddresses : List String := ["localhost:8003", "localhost:8004"]

/-- One iteration of the loop body of Trader.NotifySellers: dial the seller,
on dial failure log and continue, otherwise issue the Seller.UpdateLeader
call carrying the new leader address, on call failure log and continue. -/
def notifyOneSeller (env : NotifyEnv) (newLeaderAddr sellerAddr : String) :
    NotifyResult :=
  match env.dial sellerAddr with
  | .fail e => .dialFailed e
  | .ok =>
    match env.call sellerAddr newLeaderAddr with
    | .fail e => .callFailed e
    | .ok r => .notified r

/-- Trader.NotifySellers: for each address in the static roster, in order,
attempt delivery of the new leader address; the function returns only the
trace of attempts (the Go method returns nothing to its caller). -/
def Trader.NotifySellers (env : NotifyEnv) (_t : Trader)
    (newLeaderAddr : String) : List (String × NotifyResult) :=
  sellerAddresses.map fun addr => (addr, notifyOneSeller env newLeaderAddr addr)

/-- Trader.TakeOverLeadership: set IsLeader to true, then call NotifySellers
with the trader's own address.  Returns the new state, the address announced,
and the notification trace. -/
def Trader.TakeOverLeadership (env : NotifyEnv) (t : Trader) :
    Trader × String × List (String × NotifyResult) :=
  let t' := { t with IsLeader := true }
  (t', t'.Address, t'.NotifySellers env t'.Address)

/-- Network outcome seen by one Trader.SendHeartbeat attempt. -/
inductive HeartbeatOutcome where
  | dialFail (err : String)
  | callFail (err : String)
  | ack (reply : String)
  deriving DecidableEq, Repr

/-- Trader.SendHeartbeat: dial the peer; on dial failure or call failure take
over leadership (which notifies the sellers); on acknowledgment do nothing.
The second component records whether takeover ran: the address announced and
the notification trace. -/
def Trader.SendHeartbeat (env : NotifyEnv) (o : HeartbeatOutcome) (t : Trader) :
    Trader × Option (String × List (String × NotifyResult)) :=
  match o with
  | .dialFail _ =>
    let r := t.TakeOverLeadership env
    (r.1, some r.2)
  | .callFail _ =>
    let r := t.TakeOverLeadership env
    (r.1, some r.2)
  | .ack _ => (t, none)

/-- Trader.ReceiveHeartbeat: mark the peer alive and reply "Alive"; the Go
method always returns a nil error (the Option String component). -/
def Trader.ReceiveHeartbeat (t : Trader) (_req : Int) :
    Trader × String × Option String :=
  ({ t with Heartbeat := true }, "Alive", none)

/-- Trader.ReceiveRequest: log, simulate processing, fill the response echoing
the request's RequestID with Status "Success" and Processed true, and return a
nil error.  The trader state is untouched (in particular Requests). -/
def Trader.ReceiveRequest (t : Trader) (req : Request) :
    Trader × Response × Option String :=
  (t,
   { Status := "Success",
     Message := "Processed request " ++ toString req.RequestID ++ ": "
       ++ toString req.Quantity ++ " " ++ req.Item ++ " from Seller "
       ++ toString req.SellerID,
     RequestID := req.RequestID,
     Processed := true },
   none)

/-- Two's-complement wraparound of Go's 64-bit int: the result of any int
arithmetic, reduced into the interval from -2^63 up to (but excluding) 2^63. -/
def intWrap (n : Int) : Int :=
  (n + 2 ^ 63) % 2 ^ 64 - 2 ^ 63

/-- The locked prefix of Seller.SendRequest: increment RequestID under
RequestLock and read the allocated value.  The increment is Go int
arithmetic, which wraps at 2^63 on the 64-bit targets run.sh uses. -/
def Seller.allocRequestID (s : Seller) : Seller × Int :=
  let n := intWrap (s.RequestID + 1)
  ({ s with RequestID := n }, n)

/-- Seller.UpdateLeader: overwrite the believed trader address, reply
"Leader updated successfully", return a nil error (the Option String). -/
def Seller.UpdateLeader (s : Seller) (newLeaderAddr : String) :
    Seller × String × Option String :=
  ({ s with TraderAddr := newLeaderAddr }, "Leader updated successfully", none)

/-- The acceptance test inside Seller.SendRequest's retry loop:
res.Processed && res.RequestID == reqID. -/
def responseAccepted (reqID : Int) (res : Response) : Bool :=
  res.Processed && res.RequestID == reqID

/-- Network outcome of one iteration of Seller.SendRequest's retry loop. -/
inductive CallOutcome where
  | dialFail (err : String)
  | callFail (err : String)
  | reply (res : Response)
  deriving DecidableEq, Repr

/-- Whether one retry-loop iteration breaks out of the loop: dial failure and
call failure retry, a reply retries unless it is accepted. -/
def attemptSucceeds (reqID : Int) : CallOutcome → Bool
  | .dialFail _ => false
  | .callFail _ => false
  | .reply res => responseAccepted reqID res

/-- Seller.SendRequest's retry loop over a finite trace of network outcomes:
true means the loop hit `break` (the request was declared processed) within
the trace; false means every attempt in the trace caused a backoff-and-retry
and the loop is still running.  The loop never produces an error value. -/
def sendRequestLoop (reqID : Int) : List CallOutcome → Bool
  | [] => false
  | o :: rest => if attemptSucceeds reqID o then true else sendRequestLoop reqID rest

/-- Operations that mutate a Seller across its lifetime: the allocation step
of a SendRequest cycle, or an inbound UpdateLeader. -/
inductive SellerOp where
  | sendRequest
  | updateLeader (addr : String)
  deriving DecidableEq, Repr

/-- Apply one SellerOp; returns the new state and the sequence number
allocated by the op, if any. -/
def applySellerOp (s : Seller) : SellerOp → Seller × Option Int
  | .sendRequest => let p := s.allocRequestID; (p.1, some p.2)
  | .updateLeader a => ((s.UpdateLeader a).1, none)

/-- Run a list of SellerOps and collect the allocated sequence numbers in
order. -/
def runSellerOps (s : Seller) : List SellerOp → List Int
  | [] => []
  | op :: ops =>
    let p := applySellerOp s op
    match p.2 with
    | some n => n :: runSellerOps p.1 ops
    | none => runSellerOps p.1 ops

/-- How many sequence-number allocations a list of SellerOps performs. -/
def numAllocs : List SellerOp → Nat
  | [] => 0
  | SellerOp.sendRequest :: ops => numAllocs ops + 1
  | SellerOp.updateLeader _ :: ops => numAllocs ops

/-- State of one in-progress SendRequest cycle: the seller plus the request
built once before the loop (its RequestID was captured at allocation). -/
structure RetryCycle where
  seller : Seller
  req : Request
  deriving DecidableEq, Repr

/-- The preparation part of Seller.SendRequest: allocate the sequence number
and build the request ("apples", quantity 10) that the loop will resend. -/
def Seller.startSendRequest (s : Seller) : RetryCycle :=
  let p := s.allocRequestID
  { seller := p.1,
    req := { SellerID := p.1.ID, Post := p.1.Post, Item := "apples",
             Quantity := 10, RequestID := p.2 } }

/-- The address rpc.Dial is given on a retry-loop iteration: the loop re-reads
s.TraderAddr every time round. -/
def dialAddr (c : RetryCycle) : String := c.seller.TraderAddr

/-- An inbound Seller.UpdateLeader landing while the cycle is mid-retry:
only the seller's believed address changes; the cycle's request (and its
captured RequestID) is untouched. -/
def applyUpdateLeaderMidRetry (c : RetryCycle) (newAddr : String) : RetryCycle :=
  { c with seller := (c.seller.UpdateLeader newAddr).1 }

/-- The retry loop with concurrent UpdateLeader deliveries interleaved: each
step is (optional UpdateLeader applied during the preceding backoff, network
outcome of the attempt).  Returns the list of addresses dialed, stopping after
an accepted response. -/
def sendRequestDials (c : RetryCycle) :
    List (Option String × CallOutcome) → List String
  | [] => []
  | (upd, o) :: rest =>
    let c' := match upd with
      | some a => applyUpdateLeaderMidRetry c a
      | none => c
    dialAddr c' ::
      (if attemptSucceeds c'.req.RequestID o then [] else sendRequestDials c' rest)

/-- Mutable fields of a Seller shared across its tasks. -/
inductive SellerVar where
  | requestID
  | traderAddr
  deriving DecidableEq, Repr

/-- Mutable fields of a Trader shared across its tasks. -/
inductive TraderVar where
  | isLeader
  | heartbeatFlag
  deriving DecidableEq, Repr

/-- Synchronisation-relevant atomic actions executed by a method body:
mutex acquire/release (named) and shared-field accesses. -/
inductive MemAction (v : Type) where
  | lock (m : String)
  | unlock (m : String)
  | read (x : v)
  | write (x : v)
  deriving DecidableEq, Repr

/-- True when every access (read or write) of field `x` in the action trace
happens while at least one mutex is held. -/
def accessesLocked {v : Type} [DecidableEq v] (x : v) :
    List String → List (MemAction v) → Bool
  | _, [] => true
  | held, MemAction.lock m :: rest => accessesLocked x (m :: held) rest
  | held, MemAction.unlock m :: rest => accessesLocked x (held.erase m) rest
  | held, MemAction.read y :: rest =>
    (y != x || !held.isEmpty) && accessesLocked x held rest
  | held, MemAction.write y :: rest =>
    (y != x || !held.isEmpty) && accessesLocked x held rest

/-- Action trace of Seller.SendRequest: RequestID is incremented and read
under RequestLock; the retry loop then reads TraderAddr (for rpc.Dial) with no
lock held. -/
def sendRequestActions : List (MemAction SellerVar) :=
  [.lock "RequestLock", .read .requestID, .write .requestID, .read .requestID,
   .unlock "RequestLock", .read .traderAddr]

/-- Action trace of Seller.UpdateLeader: a bare write of TraderAddr, no lock
is acquired anywhere in the method. -/
def updateLeaderActions : List (MemAction SellerVar) :=
  [.write .traderAddr]

/-- Action trace of Trader.TakeOverLeadership: a bare write of IsLeader, no
lock is acquired anywhere in the method. -/
def takeOverLeadershipActions : List (MemAction TraderVar) :=
  [.write .isLeader]

/-- Action trace of Trader.ReceiveHeartbeat: the Heartbeat flag is written
under HeartbeatMu. -/
def receiveHeartbeatActions : List (MemAction TraderVar) :=
  [.lock "HeartbeatMu", .write .heartbeatFlag, .unlock "HeartbeatMu"]

/-- Command-line configuration read by trader.go's main. -/
structure TraderConfig where
  id : Int
  address : String
  peer : String
  post : Int
  deriving DecidableEq, Repr

/-- trader.go's main: reject zero/empty flag values, otherwise build the
Trader with IsLeader set exactly when the id flag equals 1; the Heartbeat flag
and Requests list start at their zero values. -/
def mainInitTrader (c : TraderConfig) : Option Trader :=
  if c.id == 0 || c.address == "" || c.peer == "" || c.post == 0 then
    none
  else
    some { ID := c.id, Address := c.address, Peer := c.peer, Post := c.post,
           IsLeader := c.id == 1, Heartbeat := false, Requests := [] }

/-- Environment in which every dial and every call succeeds. -/
def envAllOk : NotifyEnv :=
  { dial := fun _ => .ok, call := fun _ _ => .ok "Leader updated successfully" }

/-- Trader 2 as launched by run.sh (peer of Trader 1, initially not leader). -/
def trader2 : Trader :=
  { ID := 2, Address := "localhost:8002", Peer := "localhost:8001", Post := 2,
    IsLeader := false, Heartbeat := false, Requests := [] }

/-- A concrete request such as Seller 1 builds (10 apples). -/
def reqApples : Request :=
  { SellerID := 1, Post := 1, Item := "apples", Quantity := 10, RequestID := 1 }

/-- Claim C1: on any heartbeat attempt whose dial or whose call fails, the
coordinator sets IsLeader to true and invokes the seller notification with its
own address before the attempt completes; a single failed attempt suffices. -/
theorem sendHeartbeat_failure_takes_over (env : NotifyEnv) (o : HeartbeatOutcome)
    (t : Trader)
    (h : (∃ e, o = HeartbeatOutcome.dialFail e) ∨
         (∃ e, o = HeartbeatOutcome.callFail e)) :
    (Trader.SendHeartbeat env o t).1.IsLeader = true ∧
    (Trader.SendHeartbeat env o t).2 =
      some (t.Address, t.NotifySellers env t.Address) := by
  rcases h with ⟨e, rfl⟩ | ⟨e, rfl⟩ <;> exact ⟨rfl, rfl⟩

/-- Claim C1 witness: Trader 2, hitting a refused connection on one heartbeat,
takes over and announces its own address to the sellers. -/
theorem sendHeartbeat_failure_takes_over_witness :
    (Trader.SendHeartbeat envAllOk (.dialFail "connection refused") trader2).1.IsLeader
        = true ∧
    (Trader.SendHeartbeat envAllOk (.dialFail "connection refused") trader2).2 =
      some (trader2.Address, trader2.NotifySellers envAllOk trader2.Address) :=
  sendHeartbeat_failure_takes_over envAllOk _ trader2
    (Or.inl ⟨"connection refused", rfl⟩)

/-- Claim C2: Trader.ReceiveRequest always returns a response with Processed
true, Status "Success" and the echoed RequestID, together with a nil error,
and the response is independent of the trader's state (leadership or
partition ownership). -/
theorem receiveRequest_always_acknowledges (t t' : Trader) (req : Request) :
    (t.ReceiveRequest req).2.1.Processed = true ∧
    (t.ReceiveRequest req).2.1.Status = "Success" ∧
    (t.ReceiveRequest req).2.1.RequestID = req.RequestID ∧
    (t.ReceiveRequest req).2.2 = none ∧
    (t.ReceiveRequest req).2 = (t'.ReceiveRequest req).2 :=
  ⟨rfl, rfl, rfl, rfl, rfl⟩

/-- Helper for claim C3: one loop iteration breaks out exactly on a reply with
Processed true and the matching sequence number. -/
theorem attemptSucceeds_iff (reqID : Int) (o : CallOutcome) :
    attemptSucceeds reqID o = true ↔
      ∃ res : Response, o = CallOutcome.reply res ∧
        res.Processed = true ∧ res.RequestID = reqID := by
  cases o with
  | dialFail e => simp [attemptSucceeds]
  | callFail e => simp [attemptSucceeds]
  | reply res => simp [attemptSucceeds, responseAccepted]

/-- Claim C3: the retry loop of Seller.SendRequest declares the request
succeeded within a trace of outcomes exactly when the trace contains a reply
with Processed true and the matching sequence number; every other outcome
(dial failure, call failure, Processed false, mismatched number) makes it back
off and retry, and the loop never produces an error. -/
theorem sendRequestLoop_succeeds_iff (reqID : Int) (outcomes : List CallOutcome) :
    (sendRequestLoop reqID outcomes = true ↔
      ∃ res : Response, CallOutcome.reply res ∈ outcomes ∧
        res.Processed = true ∧ res.RequestID = reqID) ∧
    ∀ o, sendRequestLoop reqID (o :: outcomes) =
      (attemptSucceeds reqID o || sendRequestLoop reqID outcomes) := by
  constructor
  · induction outcomes with
    | nil => simp [sendRequestLoop]
    | cons o rest ih =>
      cases ho : attemptSucceeds reqID o with
      | true =>
        rcases (attemptSucceeds_iff reqID o).1 ho with ⟨res, rfl, h1, h2⟩
        constructor
        · intro _
          exact ⟨res, List.mem_cons_self _ _, h1, h2⟩
        · intro _
          simp [sendRequestLoop, ho]
      | false =>
        have hstep : sendRequestLoop reqID (o :: rest) = sendRequestLoop reqID rest := by
          simp [sendRequestLoop, ho]
        rw [hstep, ih]
        constructor
        · rintro ⟨res, hmem, h1, h2⟩
          exact ⟨res, List.mem_cons_of_mem _ hmem, h1, h2⟩
        · rintro ⟨res, hmem, h1, h2⟩
          rcases List.mem_cons.1 hmem with heq | hmem'
          · exfalso
            have hs : attemptSucceeds reqID o = true :=
              (attemptSucceeds_iff reqID o).2 ⟨res, heq.symm, h1, h2⟩
            rw [ho] at hs
            cases hs
          · exact ⟨res, hmem', h1, h2⟩
  · intro o
    cases ho : attemptSucceeds reqID o <;> simp [sendRequestLoop, ho]

/-- Helper for claim C4: an in-range value is a fixed point of the int64
wraparound. -/
theorem intWrap_eq_self (n : Int) (hlo : -(2 ^ 63) ≤ n) (hhi : n < 2 ^ 63) :
    intWrap n = n := by
  unfold intWrap
  have h1 : (0 : Int) ≤ n + 2 ^ 63 := by linarith
  have h2 : n + 2 ^ 63 < 2 ^ 64 := by
    have e : (2 : Int) ^ 64 = 2 ^ 63 * 2 := pow_succ 2 63
    rw [e]
    linarith
  rw [Int.emod_eq_of_lt h1 h2]
  ring

/-- Helper for claim C4: while the counter stays below the int64 maximum (no
increment wraps), allocated sequence numbers of a run form a strictly
increasing chain, all strictly above the starting counter value. -/
theorem runSellerOps_chain : ∀ (ops : List SellerOp) (s : Seller),
    -(2 ^ 63) ≤ s.RequestID → s.RequestID + (numAllocs ops : Int) < 2 ^ 63 →
    List.Chain' (· < ·) (runSellerOps s ops) ∧
      ∀ n ∈ runSellerOps s ops, s.RequestID < n := by
  intro ops
  induction ops with
  | nil =>
    intro s _ _
    exact ⟨List.chain'_nil, fun n hn => absurd hn (List.not_mem_nil n)⟩
  | cons op rest ih =>
    intro s hlo hhi
    cases op with
    | sendRequest =>
      have hnum : ((numAllocs (SellerOp.sendRequest :: rest) : Nat) : Int) =
          (numAllocs rest : Int) + 1 := by
        show ((numAllocs rest + 1 : Nat) : Int) = (numAllocs rest : Int) + 1
        push_cast
        ring
      rw [hnum] at hhi
      have hcnt : (0 : Int) ≤ (numAllocs rest : Int) := Int.ofNat_nonneg _
      have hw : intWrap (s.RequestID + 1) = s.RequestID + 1 := by
        apply intWrap_eq_self
        · linarith
        · linarith
      have hrun : runSellerOps s (SellerOp.sendRequest :: rest) =
          (s.RequestID + 1) ::
            runSellerOps { s with RequestID := s.RequestID + 1 } rest := by
        show (intWrap (s.RequestID + 1) ::
            runSellerOps { s with RequestID := intWrap (s.RequestID + 1) } rest) =
          (s.RequestID + 1) ::
            runSellerOps { s with RequestID := s.RequestID + 1 } rest
        rw [hw]
      have hlo' : -(2 ^ 63) ≤ s.RequestID + 1 := by linarith
      have hhi' : (s.RequestID + 1) + (numAllocs rest : Int) < 2 ^ 63 := by linarith
      rcases ih { s with RequestID := s.RequestID + 1 } hlo' hhi' with ⟨hchain, hbound⟩
      rw [hrun]
      constructor
      · exact List.chain'_cons'.2
          ⟨fun y hy => hbound y (List.mem_of_mem_head? hy), hchain⟩
      · intro n hn
        rcases List.mem_cons.1 hn with rfl | hn'
        · exact lt_add_one s.RequestID
        · exact lt_trans (lt_add_one s.RequestID) (hbound n hn')
    | updateLeader a =>
      have hrun : runSellerOps s (SellerOp.updateLeader a :: rest) =
          runSellerOps { s with TraderAddr := a } rest := rfl
      rcases ih { s with TraderAddr := a } hlo hhi with ⟨hchain, hbound⟩
      rw [hrun]
      exact ⟨hchain, fun n hn => hbound n hn⟩

/-- A seller whose counter sits two allocations below the int64 maximum
(reached after 2^63 - 2 allocations from the initial zero counter). -/
def sellerNearMax : Seller :=
  { ID := 1, Address := "localhost:8003", TraderAddr := "localhost:8001",
    Post := 1, RequestID := 2 ^ 63 - 2 }

/-- Claim C4 counterexample: at the top of Go's 64-bit int range the counter
wraps — two successive allocations yield 2^63 - 1 and then -2^63, so the
allocated sequence numbers are not strictly increasing (and wrapped values
repeat earlier ones on a full cycle). -/
theorem seq_wraps_at_int64_max :
    runSellerOps sellerNearMax [SellerOp.sendRequest, SellerOp.sendRequest] =
      [2 ^ 63 - 1, -(2 ^ 63)] ∧
    ¬ List.Chain' (· < ·)
        (runSellerOps sellerNearMax [SellerOp.sendRequest, SellerOp.sendRequest]) := by
  have heq : runSellerOps sellerNearMax [SellerOp.sendRequest, SellerOp.sendRequest] =
      [2 ^ 63 - 1, -(2 ^ 63)] := by decide
  refine ⟨heq, ?_⟩
  rw [heq]
  intro hch
  exact absurd (List.chain'_cons.1 hch).1 (by decide)

/-- Claim C4 amended: as long as no increment wraps (the starting counter is
in int64 range and the number of allocations keeps it below 2^63), the
allocated sequence numbers are strictly increasing and never reused, and
UpdateLeader never resets or decreases the counter. -/
theorem seq_numbers_strictly_increasing (s : Seller) (ops : List SellerOp)
    (a : String) (hlo : -(2 ^ 63) ≤ s.RequestID)
    (hhi : s.RequestID + (numAllocs ops : Int) < 2 ^ 63) :
    List.Chain' (· < ·) (runSellerOps s ops) ∧
    (runSellerOps s ops).Nodup ∧
    ((s.UpdateLeader a).1).RequestID = s.RequestID := by
  rcases runSellerOps_chain ops s hlo hhi with ⟨hchain, _⟩
  exact ⟨hchain, (List.chain'_iff_pairwise.1 hchain).nodup, rfl⟩

/-- Seller 1 as launched by run.sh (counter starts at its zero value). -/
def seller1 : Seller :=
  { ID := 1, Address := "localhost:8003", TraderAddr := "localhost:8001",
    Post := 1, RequestID := 0 }

/-- Claim C4 witness: from the initial counter, two allocations with a leader
update in between yield strictly increasing, duplicate-free sequence numbers,
and the update leaves the counter alone. -/
theorem seq_numbers_strictly_increasing_witness :
    List.Chain' (· < ·) (runSellerOps seller1
      [SellerOp.sendRequest, SellerOp.updateLeader "localhost:8002",
       SellerOp.sendRequest]) ∧
    (runSellerOps seller1
      [SellerOp.sendRequest, SellerOp.updateLeader "localhost:8002",
       SellerOp.sendRequest]).Nodup ∧
    ((seller1.UpdateLeader "localhost:8002").1).RequestID = seller1.RequestID :=
  seq_numbers_strictly_increasing seller1
    [SellerOp.sendRequest, SellerOp.updateLeader "localhost:8002",
     SellerOp.sendRequest]
    "localhost:8002" (by decide) (by decide)

/-- Claim C5: Seller.UpdateLeader is idempotent — applying the same address
twice leaves the state exactly as applying it once — and every application
returns the success acknowledgment together with a nil error. -/
theorem updateLeader_idempotent (s : Seller) (a : String) :
    ((s.UpdateLeader a).1.UpdateLeader a).1 = (s.UpdateLeader a).1 ∧
    (s.UpdateLeader a).2.1 = "Leader updated successfully" ∧
    (s.UpdateLeader a).2.2 = none :=
  ⟨rfl, rfl, rfl⟩

/-- Claim C6: for every environment (per-seller dial or call failures
included) and every new leader address, Trader.NotifySellers dials each roster
address exactly once, in roster order, returning only the attempt trace. -/
theorem notifySellers_attempts_each_once (env : NotifyEnv) (t : Trader)
    (a : String) :
    (t.NotifySellers env a).map Prod.fst = sellerAddresses ∧
    (t.NotifySellers env a).length = sellerAddresses.length := by
  exact ⟨rfl, rfl⟩

/-- Claim C7: an UpdateLeader landing during a backoff redirects the very next
dial of the retry loop to the new address, while the cycle's captured sequence
number and the seller's counter are unchanged. -/
theorem updateLeader_redirects_next_dial (c : RetryCycle) (a : String)
    (o : CallOutcome) (rest : List (Option String × CallOutcome)) :
    (sendRequestDials c ((some a, o) :: rest)).head? = some a ∧
    (applyUpdateLeaderMidRetry c a).req.RequestID = c.req.RequestID ∧
    (applyUpdateLeaderMidRetry c a).seller.RequestID = c.seller.RequestID :=
  ⟨rfl, rfl, rfl⟩

/-- Claim C8 counterexample: handling a concrete request leaves the trader's
Requests list empty — Trader.ReceiveRequest does not append the request it
handles. -/
theorem receiveRequest_does_not_append :
    (trader2.ReceiveRequest reqApples).1.Requests = [] ∧
    reqApples ∉ (trader2.ReceiveRequest reqApples).1.Requests := by
  refine ⟨rfl, ?_⟩
  simp [Trader.ReceiveRequest, trader2]

/-- Claim C8 amended: no trader operation ever modifies the Requests list — in
particular ReceiveRequest leaves it unchanged instead of appending, and
nothing removes or modifies entries, so the list keeps its initial value. -/
theorem requests_list_never_modified (env : NotifyEnv) (o : HeartbeatOutcome)
    (t : Trader) (req : Request) (senderId : Int) :
    (t.ReceiveRequest req).1.Requests = t.Requests ∧
    (t.ReceiveHeartbeat senderId).1.Requests = t.Requests ∧
    (t.TakeOverLeadership env).1.Requests = t.Requests ∧
    (Trader.SendHeartbeat env o t).1.Requests = t.Requests := by
  refine ⟨rfl, rfl, rfl, ?_⟩
  cases o <;> rfl

/-- Claim C9 evaluation: the RequestID accesses in Seller.SendRequest and the
Heartbeat write in Trader.ReceiveHeartbeat are inside mutex sections, but the
TraderAddr write in Seller.UpdateLeader, the IsLeader write in
Trader.TakeOverLeadership and the TraderAddr read in SendRequest's retry loop
all happen with no lock held. -/
theorem shared_writes_not_all_locked :
    accessesLocked SellerVar.requestID [] sendRequestActions = true ∧
    accessesLocked TraderVar.heartbeatFlag [] receiveHeartbeatActions = true ∧
    accessesLocked SellerVar.traderAddr [] updateLeaderActions = false ∧
    accessesLocked TraderVar.isLeader [] takeOverLeadershipActions = false ∧
    accessesLocked SellerVar.traderAddr [] sendRequestActions = false := by
  decide

/-- Claim C10: a trader accepted by main starts authoritative exactly when its
id flag equals 1; IsLeader is computed from the id alone, no other flag
influences it. -/
theorem mainInit_isLeader_iff (c : TraderConfig) (t : Trader)
    (h : mainInitTrader c = some t) :
    t.IsLeader = (c.id == 1) ∧ (t.IsLeader = true ↔ c.id = 1) := by
  unfold mainInitTrader at h
  split at h
  · exact Option.noConfusion h
  · injection h with h2
    subst h2
    exact ⟨rfl, by simp⟩

/-- Claim C10 witness: Trader 2 from run.sh starts non-authoritative. -/
theorem mainInit_isLeader_iff_witness :
    trader2.IsLeader = ((2 : Int) == 1) ∧
    (trader2.IsLeader = true ↔ (2 : Int) = 1) :=
  mainInit_isLeader_iff
    { id := 2, address := "localhost:8002", peer := "localhost:8001", post := 2 }
    trader2 (by decide)

end A4
